import Mathlib

/-!
Verification of the Sportabase backend (src/backend/app/main.py) against its
natural-language specification.  The Python source is shallowly embedded:
pure text processing works on `List Char`, stateful endpoints thread an
explicit state, and external collaborators (HTTP fetches, the AI service,
the stdlib HTML entity table, the date parser, the hash function) appear as
explicit parameters or outcome types.
-/

set_option autoImplicit false

namespace Sportabase

/-! ### Character and string helpers (Python str methods, ASCII model) -/

/-- Word character of the regex module, ASCII range: letters, digits, underscore. -/
def isWordChar (c : Char) : Bool := c.isAlphanum || c = '_'

/-- Whitespace test modelling the whitespace class used by the Python code. -/
def isWs (c : Char) : Bool := c.isWhitespace

/-- Python str.lower, character by character. -/
def lowerL (l : List Char) : List Char := l.map Char.toLower

/-- Leading-whitespace removal, one half of Python str.strip. -/
def lstripL (l : List Char) : List Char := l.dropWhile isWs

/-- Trailing-whitespace removal, the other half of Python str.strip and all of str.rstrip. -/
def rstripL (l : List Char) : List Char := (l.reverse.dropWhile isWs).reverse

/-- Python str.strip. -/
def stripL (l : List Char) : List Char := rstripL (lstripL l)

/-- Python substring membership (needle in hay). -/
def isSubstr (needle : List Char) : List Char → Bool
  | [] => needle.isEmpty
  | c :: cs => needle.isPrefixOf (c :: cs) || isSubstr needle cs

/-- Python str.count for a single character. -/
def countChar (c : Char) (l : List Char) : Nat := l.count c

/-! ### The numeric-token scanner

The source counts matches of a word-bounded number pattern: a digit run,
optionally followed by one separator (period or comma) and a second digit
run, with a word boundary on each side.  We model the scan of re.findall
directly: leftmost nonoverlapping matches, greedy digit runs, and the
single backtracking step in which a failed closing boundary drops the
optional separator group. -/

/-- Length of the leading digit run, and the remainder of the input. -/
def digitRun : List Char → Nat × List Char
  | [] => (0, [])
  | c :: cs =>
    if c.isDigit then
      let r := digitRun cs
      (r.1 + 1, r.2)
    else (0, c :: cs)

/-- Closing word boundary: end of input or a non-word character next. -/
def boundaryAfter : List Char → Bool
  | [] => true
  | c :: _ => !isWordChar c

/-- Attempt to match the number pattern at the head of the input, which is
assumed to be scanned at an opening word boundary; returns the remainder
after the match.  When the optional separator group matches but the closing
boundary then fails, the group is dropped, as the regex engine does. -/
def matchNum (l : List Char) : Option (List Char) :=
  let p := digitRun l
  if p.1 = 0 then none
  else
    match p.2 with
    | [] => some []
    | sep :: r2 =>
      if sep = '.' || sep = ',' then
        let q := digitRun r2
        if 0 < q.1 && boundaryAfter q.2 then some q.2
        else if boundaryAfter p.2 then some p.2 else none
      else if boundaryAfter p.2 then some p.2 else none

/-- Fueled scan over the corpus counting nonoverlapping matches of the
number pattern; the flag records whether the previous character was a word
character, which decides the opening word boundary.  Every step consumes at
least one character, so fuel equal to the input length is enough. -/
def scanNumsAux : Nat → Bool → List Char → Nat
  | 0, _, _ => 0
  | _ + 1, _, [] => 0
  | fuel + 1, prevWord, c :: cs =>
    if !prevWord && c.isDigit then
      match matchNum (c :: cs) with
      | some rest => 1 + scanNumsAux fuel true rest
      | none => scanNumsAux fuel (isWordChar c) cs
    else scanNumsAux fuel (isWordChar c) cs

/-- Number of numeric tokens found in the corpus. -/
def countNums (l : List Char) : Nat := scanNumsAux l.length false l

/-! ### The merit scorer -/

def HEDGE_WORDS : List String :=
  ["linked", "interest", "monitoring", "could", "reportedly", "talks",
   "close to", "understood", "sources", "believed", "expected", "set to"]

def OFFICIAL_WORDS : List String :=
  ["official", "club statement", "press release", "confirmed", "announced"]

/-- The scoring corpus of merit_score: title and text joined by a newline,
stripped, then lowercased. -/
def corpus (title text : String) : List Char :=
  lowerL (stripL (title ++ "\n" ++ text).data)

/-- Count of numeric tokens in the corpus. -/
def numsOf (title text : String) : Nat := countNums (corpus title text)

/-- Count of straight and curly double quotes in the corpus. -/
def quotesOf (title text : String) : Nat :=
  countChar '"' (corpus title text) + countChar '“' (corpus title text) +
    countChar '”' (corpus title text)

/-- Some hedging-lexicon word occurs in the corpus. -/
def hedgingOf (title text : String) : Bool :=
  HEDGE_WORDS.any (fun w => isSubstr w.data (corpus title text))

/-- Some official-lexicon word occurs in the corpus. -/
def officialOf (title text : String) : Bool :=
  OFFICIAL_WORDS.any (fun w => isSubstr w.data (corpus title text))

/-- The factual-density sub-score. -/
def factualDensityOf (title text : String) : Nat :=
  min 35 (numsOf title text * 3 + min 12 (quotesOf title text))

/-- The evidence-quality sub-score. -/
def evidenceQualityOf (title text : String) : Nat :=
  if officialOf title text then 28
  else 12 - (if hedgingOf title text then 6 else 0)

/-- The clamped total of the five sub-scores (three of them fixed placeholders). -/
def totalOf (title text : String) : Int :=
  max 0 (min 100 ((factualDensityOf title text : Int) +
    (evidenceQualityOf title text : Int) + 15 + 10 + 10))

/-- The badge function of the source. -/
def badge (score : Int) : String :=
  if score ≤ 20 then "Speculative"
  else if score ≤ 40 then "Low Evidence"
  else if score ≤ 60 then "Emerging"
  else if score ≤ 80 then "High Credibility"
  else "Confirmed"

def reasonOfficial : String :=
  "Uses official/confirmed language (e.g., confirmed/announced)."

def reasonHedging : String :=
  "Contains hedging/rumor language (e.g., reportedly/could/sources)."

def reasonHighDensity : String :=
  "Includes multiple specific numbers/details (higher factual density)."

def reasonLowSpec : String :=
  "Few concrete details (mostly narrative / low specificity)."

def reasonQuotes : String :=
  "Includes quoted statements (adds some evidence context)."

def reasonHighCred : String :=
  "Overall signals point to high credibility."

def reasonLowEvidence : String :=
  "Overall signals point to low evidence / speculative content."

/-- The reason list in the fixed priority order of the source, before the
cap at four entries: official language, hedging language (only without
official), number density or its absence, quoted statements, and the
overall outcome signal. -/
def reasonsPriority (hasOfficial hedging : Bool) (nums quotes : Nat) (total : Int) :
    List String :=
  (if hasOfficial then [reasonOfficial] else []) ++
  (if hedging && !hasOfficial then [reasonHedging] else []) ++
  (if 3 ≤ nums then [reasonHighDensity] else if nums = 0 then [reasonLowSpec] else []) ++
  (if 2 ≤ quotes then [reasonQuotes] else []) ++
  (if 80 ≤ total then [reasonHighCred] else if total ≤ 40 then [reasonLowEvidence] else [])

structure MeritResult where
  total : Int
  badge : String
  reasons : List String
deriving DecidableEq, Repr

/-- Model of merit_score from the source: counts, lexicon hits, sub-scores,
clamped total, badge, and the reason list capped at four entries. -/
def merit_score (title text : String) : MeritResult :=
  let total := totalOf title text
  { total := total
    badge := badge total
    reasons :=
      (reasonsPriority (officialOf title text) (hedgingOf title text)
        (numsOf title text) (quotesOf title text) total).take 4 }

/-! ### The extractive fallback summariser -/

/-- Whitespace-run collapsing, modelling the substitution of every
whitespace run by a single space; the flag records whether the previous
character was whitespace. -/
def collapseWsAux : Bool → List Char → List Char
  | _, [] => []
  | prevWs, c :: cs =>
    if isWs c then
      (if prevWs then [] else [' ']) ++ collapseWsAux true cs
    else c :: collapseWsAux false cs

/-- Replacement of every whitespace run by one space. -/
def collapseWs (l : List Char) : List Char := collapseWsAux false l

/-- The cleaned text of the fallback: whitespace runs collapsed, then
leading and trailing whitespace stripped. -/
def normText (l : List Char) : List Char := stripL (collapseWs l)

/-- Sentence-ending punctuation of the splitting pattern. -/
def isSentEnd (c : Char) : Bool := c = '.' || c = '!' || c = '?'

/-- Head of the accumulated (reversed) piece is sentence-ending. -/
def headSentEnd : List Char → Bool
  | [] => false
  | p :: _ => isSentEnd p

/-- Fueled sentence splitting: a split consumes a whitespace run that is
preceded by sentence-ending punctuation.  Every step consumes at least one
character, so fuel equal to the input length is enough. -/
def splitSentsAux : Nat → List Char → List Char → List (List Char)
  | _, acc, [] => [acc.reverse]
  | 0, acc, c :: cs => [acc.reverse ++ c :: cs]
  | fuel + 1, acc, c :: cs =>
    if isWs c && headSentEnd acc then
      acc.reverse :: splitSentsAux fuel [] (cs.dropWhile isWs)
    else splitSentsAux fuel (c :: acc) cs

/-- Sentence splitting of the fallback. -/
def splitSents (l : List Char) : List (List Char) :=
  splitSentsAux l.length [] l

/-- The boilerplate phrases discarded by the fallback, in source order. -/
def BOILERPLATE : List String :=
  ["for other uses", "this article is about", "disambiguation", "may refer to"]

/-- A lowercased sentence carries a boilerplate phrase. -/
def hasBoilerplate (low : List Char) : Bool :=
  BOILERPLATE.any (fun x => isSubstr x.data low)

/-- Truncation of an overlong sentence: first 237 characters, trailing
whitespace removed, then the ellipsis marker. -/
def truncSent (s : List Char) : List Char :=
  if 240 < s.length then rstripL (s.take 237) ++ "...".data else s

/-- The collection loop of the fallback; cnt is the number of bullets
already collected, seen the lowercased sentences already kept.  The break
of the source runs after the append, so the loop stops right after the
bullet that reaches the cap. -/
def fbLoop (maxBullets : Nat) (seen : List (List Char)) (cnt : Nat) :
    List (List Char) → List (List Char)
  | [] => []
  | s :: rest =>
    let s' := stripL s
    if s'.length < 30 then fbLoop maxBullets seen cnt rest
    else if hasBoilerplate (lowerL s') then fbLoop maxBullets seen cnt rest
    else if lowerL s' ∈ seen then fbLoop maxBullets seen cnt rest
    else if maxBullets ≤ cnt + 1 then [truncSent s']
    else truncSent s' :: fbLoop maxBullets (lowerL s' :: seen) (cnt + 1) rest

/-- Model of extractive_fallback from the source. -/
def extractive_fallback (text : String) (maxBullets : Nat) : List String :=
  let t := normText text.data
  if t.isEmpty then []
  else (fbLoop maxBullets [] 0 (splitSents t)).map (fun l => String.mk l)

/-- Case-insensitive deduplication keeping first occurrences. -/
def dedupByLower (seen : List (List Char)) : List (List Char) → List (List Char)
  | [] => []
  | s :: ss =>
    if lowerL s ∈ seen then dedupByLower seen ss
    else s :: dedupByLower (lowerL s :: seen) ss

/-- The noise filter of the fallback: at least 30 characters and no
boilerplate phrase. -/
def keepSentence (s : List Char) : Bool :=
  decide (30 ≤ s.length) && !hasBoilerplate (lowerL s)

/-- The fallback written as the specification words it: split the cleaned
text into sentences, strip them, discard the short and the boilerplate
ones, deduplicate case-insensitively, truncate the overlong survivors, and
take the first maxBullets in original order. -/
def fallbackSpec (text : String) (maxBullets : Nat) : List String :=
  let t := normText text.data
  if t.isEmpty then []
  else
    ((((dedupByLower [] (((splitSents t).map stripL).filter keepSentence)).map
        truncSent).take maxBullets).map (fun l => String.mk l))

/-- Concrete input refuting the truncation wording of the claim: a single
300-character sentence whose character at index 236 is a space. -/
def cexC4 : String :=
  String.mk (List.replicate 236 'a' ++ [' '] ++ List.replicate 62 'b' ++ ['.'])

/-! ### The AI summariser and its fallback selection -/

/-- Python str.strip as a String operation. -/
def pyStrip (s : String) : String := String.mk (stripL s.data)

/-- An element of the bullets field of a parsed AI response: either a JSON
string or a value of some other shape. -/
inductive PyItem where
  | str (s : String)
  | nonstr
deriving DecidableEq, Repr

/-- Outcome of the external AI call as observed by gemini_tldr: no
configured credential (no client), an exception at any step of the network
call or of the JSON parsing (including a malformed or brace-less
response), or a parsed payload whose bullets field holds the given items
(a missing field gives the empty list, as dict.get does). -/
inductive GeminiOutcome where
  | noKey
  | fail
  | parsed (items : List PyItem)
deriving DecidableEq, Repr

/-- The bullet filter of the source: keep the string items that are
nonempty after stripping, stripped. -/
def aiBullets (items : List PyItem) : List String :=
  items.filterMap (fun i =>
    match i with
    | .str s => if pyStrip s = "" then none else some (pyStrip s)
    | .nonstr => none)

/-- Model of gemini_tldr from the source: without a client or on any
failure it returns the extractive fallback; on a parsed response it keeps
the nonempty stripped string bullets capped at maxBullets, falling back
when none survives the filter. -/
def gemini_tldr (outcome : GeminiOutcome) (title text : String) (maxBullets : Nat) :
    List String :=
  match outcome, title with
  | .noKey, _ => extractive_fallback text maxBullets
  | .fail, _ => extractive_fallback text maxBullets
  | .parsed items, _ =>
    let bullets := aiBullets items
    if bullets.isEmpty then extractive_fallback text maxBullets
    else bullets.take maxBullets

/-! ### The HTML normaliser -/

/-- Scan for the closing angle bracket of a tag; the opening bracket and at
least one content character have already been consumed. -/
def goTag : List Char → Option (List Char)
  | [] => none
  | c :: cs => if c = '>' then some cs else goTag cs

/-- After an opening angle bracket: a tag needs at least one character
other than the closing bracket, then the closing bracket; returns the
remainder after the tag, or none when the pattern cannot match here. -/
def findTagEnd : List Char → Option (List Char)
  | [] => none
  | c :: cs => if c = '>' then none else goTag cs

/-- Fueled removal of tag-like substrings: every match of the tag pattern
is replaced by one space; a failed match emits the opening bracket and
rescans from the next character.  Every step consumes at least one
character, so fuel equal to the input length is enough. -/
def stripTagsAux : Nat → List Char → List Char
  | _, [] => []
  | 0, l => l
  | fuel + 1, c :: cs =>
    if c = '<' then
      match findTagEnd cs with
      | some rest => ' ' :: stripTagsAux fuel rest
      | none => c :: stripTagsAux fuel cs
    else c :: stripTagsAux fuel cs

/-- Replacement of every tag-like substring by one space. -/
def stripTags (l : List Char) : List Char := stripTagsAux l.length l

/-- Model of clean_html from the source; the stdlib entity decoder
html.unescape lives outside the repository and enters as the parameter
unesc.  A missing input is coalesced to the empty string, entities are
decoded, tags become single spaces, whitespace runs collapse to one space,
and the ends are trimmed. -/
def clean_html (unesc : String → String) (s : Option String) : String :=
  String.mk (stripL (collapseWs (stripTags (unesc (s.getD "")).data)))

/-! ### Application state, the analyze endpoint -/

/-- A persisted story row of the stories table. -/
structure StoryRow where
  id : String
  source : String
  sport : String
  title : String
  link : String
  published : Option String
  summary : String
  tldr : List String
  merit_score : Int
  badge : String
  created_at : String
deriving DecidableEq, Repr

/-- The application state outside the pure functions: the story store and
the observable outcome of the external AI call. -/
structure World where
  db : List StoryRow
  ai : GeminiOutcome
deriving DecidableEq, Repr

/-- The merit scorer as invoked inside the application: the source
function reads no state and writes none, so its call returns the pure
result together with the untouched state. -/
def meritScoreApp (w : World) (title text : String) : MeritResult × World :=
  (merit_score title text, w)

/-- The request body of the analyze endpoint. -/
structure AnalyzeRequest where
  title : String
  url : String
  text : String
  max_bullets : Nat
deriving DecidableEq, Repr

/-- The response body of the analyze endpoint. -/
structure AnalyzeResponse where
  url : String
  title : String
  tldr : List String
  merit_score : Int
  badge : String
  reasons : List String
deriving DecidableEq, Repr

/-- Model of the analyze endpoint: summarise and score the request text
and return the response; the story store is passed through untouched, as
the handler opens no database connection. -/
def analyze (w : World) (req : AnalyzeRequest) : AnalyzeResponse × World :=
  ({ url := req.url
     title := req.title
     tldr := gemini_tldr w.ai req.title req.text req.max_bullets
     merit_score := (merit_score req.title req.text).total
     badge := (merit_score req.title req.text).badge
     reasons := (merit_score req.title req.text).reasons }, w)

/-! ### The ingestion pipeline -/

/-- A configured feed source, with the dictionary defaults of the source
already applied. -/
structure Source where
  name : String
  sport : String
  url : String
deriving DecidableEq, Repr

/-- A feed entry as feedparser presents it: attributes may be missing, and
the source treats a missing and an empty attribute alike. -/
structure Entry where
  link : Option String
  title : Option String
  summary : Option String
  published : Option String
  updated : Option String
deriving DecidableEq, Repr

/-- Python truthiness of an optional string attribute. -/
def truthy : Option String → Bool
  | none => false
  | some s => s != ""

/-- The external collaborators of one ingestion run: the stable id
function (the hash of the source lives outside the repository), the date
parser (none models a parse exception), the HTML entity decoder, the AI
call outcome, and the feed fetch (none models a request or parse
exception for that source). -/
structure IngestEnv where
  sid : String → String
  dtparse : String → Option String
  unesc : String → String
  ai : GeminiOutcome
  fetch : String → Option (List Entry)

/-- Model of parse_published from the source: the first of the published
and updated fields that is truthy and parses wins; a falsy field or a
parse exception moves on to the next, and none survives otherwise. -/
def parse_published (dtparse : String → Option String) (e : Entry) : Option String :=
  match (if truthy e.published then dtparse (e.published.getD "") else none) with
  | some r => some r
  | none => if truthy e.updated then dtparse (e.updated.getD "") else none

/-- The ids present in the store, as the dedup SELECT sees them. -/
def ids (db : List StoryRow) : List String := db.map StoryRow.id

/-- One inserted row, as the INSERT statement of the source builds it. -/
def mkRow (env : IngestEnv) (name sport now : String) (e : Entry) (sid : String) :
    StoryRow :=
  { id := sid
    source := name
    sport := sport
    title := String.mk (stripL (e.title.getD "").data)
    link := String.mk (stripL (e.link.getD "").data)
    published := parse_published env.dtparse e
    summary := String.mk (stripL (clean_html env.unesc e.summary).data)
    tldr := gemini_tldr env.ai (e.title.getD "") (clean_html env.unesc e.summary) 3
    merit_score := (merit_score (e.title.getD "") (clean_html env.unesc e.summary)).total
    badge := (merit_score (e.title.getD "") (clean_html env.unesc e.summary)).badge
    created_at := now }

/-- Counter bookkeeping of the entry loop: one more fetched entry, and
either one inserted or one skipped. -/
def bump (r : List StoryRow × Nat × Nat × Nat) (ins skip : Nat) :
    List StoryRow × Nat × Nat × Nat :=
  (r.1, r.2.1 + 1, r.2.2.1 + ins, r.2.2.2 + skip)

/-- The per-entry loop of ingest over one feed, returning the new store
and the fetched, inserted and skipped counters: entries without a truthy
link and title are ignored, an entry whose stable id is already stored is
skipped, and any other entry is inserted before the loop moves on, so
later entries see the row. -/
def ingestEntries (env : IngestEnv) (name sport now : String) :
    List StoryRow → List Entry → List StoryRow × Nat × Nat × Nat
  | db, [] => (db, 0, 0, 0)
  | db, e :: es =>
    if truthy e.link && truthy e.title then
      if env.sid (e.link.getD "") ∈ ids db then
        bump (ingestEntries env name sport now db es) 0 1
      else
        bump (ingestEntries env name sport now
          (db ++ [mkRow env name sport now e (env.sid (e.link.getD ""))]) es) 1 0
    else ingestEntries env name sport now db es

/-- Counter bookkeeping of the source loop: the counters of one feed are
added to the counters of the remaining run, which starts from the store
the feed left behind. -/
def addCounts (r1 : List StoryRow × Nat × Nat × Nat)
    (k : List StoryRow → List StoryRow × Nat × Nat × Nat) :
    List StoryRow × Nat × Nat × Nat :=
  ((k r1.1).1, r1.2.1 + (k r1.1).2.1, r1.2.2.1 + (k r1.1).2.2.1,
    r1.2.2.2 + (k r1.1).2.2.2)

/-- The per-source loop of ingest: a source without a url or with a
failing fetch is skipped whole, and each fetched feed contributes its
first forty entries. -/
def ingestSources (env : IngestEnv) (now : String) :
    List StoryRow → List Source → List StoryRow × Nat × Nat × Nat
  | db, [] => (db, 0, 0, 0)
  | db, src :: rest =>
    if src.url = "" then ingestSources env now db rest
    else
      match env.fetch src.url with
      | none => ingestSources env now db rest
      | some entries =>
        addCounts (ingestEntries env src.name src.sport now db (entries.take 40))
          (fun db2 => ingestSources env now db2 rest)

/-- The response of one ingestion run together with the final store. -/
structure IngestResult where
  db : List StoryRow
  sources : Nat
  fetched_items : Nat
  inserted : Nat
  skipped : Nat
deriving DecidableEq, Repr

/-- Model of the ingest endpoint: one run over the configured sources. -/
def ingest (env : IngestEnv) (sources : List Source) (now : String)
    (db : List StoryRow) : IngestResult :=
  { db := (ingestSources env now db sources).1
    sources := sources.length
    fetched_items := (ingestSources env now db sources).2.1
    inserted := (ingestSources env now db sources).2.2.1
    skipped := (ingestSources env now db sources).2.2.2 }

-- ===== THEOREMS =====

/-- C1: for every title and body the merit total is the clamp to [0, 100] of
factual density plus evidence quality plus the three fixed placeholder
scores, where factual density is min(35, nums*3 + min(12, quotes)) and
evidence quality is 28 with an official word, 6 with a hedging word and no
official word, and 12 otherwise. -/
theorem merit_total_formula (title text : String) :
    (merit_score title text).total =
      max 0 (min 100
        (((min 35 (numsOf title text * 3 + min 12 (quotesOf title text)) : Nat) : Int) +
          ((if officialOf title text then (28 : Nat)
            else if hedgingOf title text then 6 else 12 : Nat) : Int) + 15 + 10 + 10)) := by
  show totalOf title text = _
  unfold totalOf factualDensityOf evidenceQualityOf
  cases officialOf title text <;> cases hedgingOf title text <;> simp

/-- C2: the badge function maps scores at most 20 to Speculative, 21 to 40
to Low Evidence, 41 to 60 to Emerging, 61 to 80 to High Credibility, and
every larger score to Confirmed. -/
theorem badge_thresholds (score : Int) :
    (score ≤ 20 → badge score = "Speculative") ∧
    (21 ≤ score → score ≤ 40 → badge score = "Low Evidence") ∧
    (41 ≤ score → score ≤ 60 → badge score = "Emerging") ∧
    (61 ≤ score → score ≤ 80 → badge score = "High Credibility") ∧
    (81 ≤ score → badge score = "Confirmed") := by
  unfold badge
  refine ⟨?_, ?_, ?_, ?_, ?_⟩ <;> intros <;> split_ifs <;> first | rfl | omega

/-- C2 witness: the badge boundary values named by the claim. -/
theorem badge_thresholds_witness :
    badge 20 = "Speculative" ∧ badge 21 = "Low Evidence" ∧ badge 60 = "Emerging" ∧
      badge 61 = "High Credibility" ∧ badge 100 = "Confirmed" :=
  ⟨(badge_thresholds 20).1 (by decide),
   (badge_thresholds 21).2.1 (by decide) (by decide),
   (badge_thresholds 60).2.2.1 (by decide) (by decide),
   (badge_thresholds 61).2.2.2.1 (by decide) (by decide),
   (badge_thresholds 100).2.2.2.2 (by decide)⟩

/-- Each block of the priority list holds at most one entry, and the two
outcome blocks are alternatives, so the list never exceeds four entries. -/
theorem reasonsPriority_length_le (o h : Bool) (n q : Nat) (t : Int) :
    (reasonsPriority o h n q t).length ≤ 4 := by
  unfold reasonsPriority
  cases o <;> cases h <;> split_ifs <;> first | contradiction | simp

/-- The cap at four names is loose: the priority list already has at most
four entries, so taking four is the identity. -/
theorem reasonsPriority_take4 (o h : Bool) (n q : Nat) (t : Int) :
    (reasonsPriority o h n q t).take 4 = reasonsPriority o h n q t :=
  List.take_of_length_le (reasonsPriority_length_le o h n q t)

/-- Membership characterisation of each reason string in the priority list. -/
theorem reasonsPriority_mem (o h : Bool) (n q : Nat) (t : Int) :
    (reasonOfficial ∈ reasonsPriority o h n q t ↔ o = true) ∧
    (reasonHedging ∈ reasonsPriority o h n q t ↔ (h = true ∧ o = false)) ∧
    (reasonHighDensity ∈ reasonsPriority o h n q t ↔ 3 ≤ n) ∧
    (reasonLowSpec ∈ reasonsPriority o h n q t ↔ (¬ 3 ≤ n ∧ n = 0)) ∧
    (reasonQuotes ∈ reasonsPriority o h n q t ↔ 2 ≤ q) ∧
    (reasonHighCred ∈ reasonsPriority o h n q t ↔ 80 ≤ t) ∧
    (reasonLowEvidence ∈ reasonsPriority o h n q t ↔ (¬ 80 ≤ t ∧ t ≤ 40)) := by
  unfold reasonsPriority
  unfold reasonOfficial reasonHedging reasonHighDensity reasonLowSpec reasonQuotes
    reasonHighCred reasonLowEvidence
  cases o <;> cases h <;> split_ifs <;> first | contradiction | simp_all

/-- The reasons field of the scorer is the untruncated priority list. -/
theorem merit_reasons_eq (title text : String) :
    (merit_score title text).reasons =
      reasonsPriority (officialOf title text) (hedgingOf title text)
        (numsOf title text) (quotesOf title text) (totalOf title text) := by
  show (reasonsPriority _ _ _ _ _).take 4 = _
  exact reasonsPriority_take4 _ _ _ _ _

/-- Bounds of the two variable sub-scores. -/
theorem subscore_bounds (title text : String) :
    factualDensityOf title text ≤ 35 ∧
    6 ≤ evidenceQualityOf title text ∧ evidenceQualityOf title text ≤ 28 := by
  refine ⟨Nat.min_le_left _ _, ?_, ?_⟩ <;>
    (unfold evidenceQualityOf; split_ifs <;> omega)

/-- The clamp in the total is the identity: the raw sum of sub-scores. -/
theorem totalOf_eq_raw (title text : String) :
    totalOf title text =
      (factualDensityOf title text : Int) + (evidenceQualityOf title text : Int) + 35 := by
  obtain ⟨h1, h2, h3⟩ := subscore_bounds title text
  unfold totalOf
  omega

/-- C3: the reasons list equals the fixed priority list capped at four
entries; it has length at most four; and each reason string is present
exactly under its triggering condition, so the hedging and official
reasons never co-occur, high-density excludes low-specificity, and
high-credibility excludes low-evidence. -/
theorem merit_reasons_spec (title text : String) :
    (merit_score title text).reasons =
      (reasonsPriority (officialOf title text) (hedgingOf title text)
        (numsOf title text) (quotesOf title text) (totalOf title text)).take 4 ∧
    (merit_score title text).reasons.length ≤ 4 ∧
    (reasonOfficial ∈ (merit_score title text).reasons ↔ officialOf title text = true) ∧
    (reasonHedging ∈ (merit_score title text).reasons ↔
      (hedgingOf title text = true ∧ officialOf title text = false)) ∧
    (reasonHighDensity ∈ (merit_score title text).reasons ↔ 3 ≤ numsOf title text) ∧
    (reasonLowSpec ∈ (merit_score title text).reasons ↔ numsOf title text = 0) ∧
    (reasonQuotes ∈ (merit_score title text).reasons ↔ 2 ≤ quotesOf title text) ∧
    (reasonHighCred ∈ (merit_score title text).reasons ↔ 80 ≤ totalOf title text) ∧
    (reasonLowEvidence ∈ (merit_score title text).reasons ↔ totalOf title text ≤ 40) := by
  have hr := merit_reasons_eq title text
  have hm := reasonsPriority_mem (officialOf title text) (hedgingOf title text)
    (numsOf title text) (quotesOf title text) (totalOf title text)
  refine ⟨by rw [hr, reasonsPriority_take4], ?_, ?_, ?_, ?_, ?_, ?_, ?_, ?_⟩
  · rw [hr]; exact reasonsPriority_length_le _ _ _ _ _
  · rw [hr]; exact hm.1
  · rw [hr]; exact hm.2.1
  · rw [hr]; exact hm.2.2.1
  · rw [hr]
    constructor
    · intro hx; exact (hm.2.2.2.1.mp hx).2
    · intro hx; exact hm.2.2.2.1.mpr ⟨by omega, hx⟩
  · rw [hr]; exact hm.2.2.2.2.1
  · rw [hr]; exact hm.2.2.2.2.2.1
  · rw [hr]
    constructor
    · intro hx; exact (hm.2.2.2.2.2.2.mp hx).2
    · intro hx; exact hm.2.2.2.2.2.2.mpr ⟨by omega, hx⟩

/-- C3 witness: concrete evaluation of the reasons characterisation. -/
theorem merit_reasons_spec_witness :
    (merit_score "Plain title" "Plain body with nothing special at all.").reasons.length ≤ 4 ∧
    reasonLowSpec ∈ (merit_score "Plain title" "Plain body with nothing special at all.").reasons :=
  ⟨(merit_reasons_spec "Plain title" "Plain body with nothing special at all.").2.1,
   (merit_reasons_spec "Plain title"
      "Plain body with nothing special at all.").2.2.2.2.2.1.mpr (by decide)⟩

/-- C10: the merit total always lies in [41, 98], the clamp to [0, 100]
never binds, the scorer never yields the Speculative or Low Evidence
badges, and the low-evidence outcome reason is never emitted. -/
theorem merit_total_range (title text : String) :
    41 ≤ (merit_score title text).total ∧
    (merit_score title text).total ≤ 98 ∧
    (merit_score title text).total =
      (factualDensityOf title text : Int) + (evidenceQualityOf title text : Int) +
        15 + 10 + 10 ∧
    (merit_score title text).badge ≠ "Speculative" ∧
    (merit_score title text).badge ≠ "Low Evidence" ∧
    reasonLowEvidence ∉ (merit_score title text).reasons := by
  obtain ⟨h1, h2, h3⟩ := subscore_bounds title text
  have hraw := totalOf_eq_raw title text
  have htl : (merit_score title text).total = totalOf title text := rfl
  have hb : (merit_score title text).badge = badge (totalOf title text) := rfl
  have hrange : 41 ≤ totalOf title text ∧ totalOf title text ≤ 98 := by omega
  refine ⟨by omega, by omega, by rw [htl]; omega, ?_, ?_, ?_⟩
  · rw [hb]; unfold badge; split_ifs <;> first | omega | decide
  · rw [hb]; unfold badge; split_ifs <;> first | omega | decide
  · rw [merit_reasons_eq]
    intro hmem
    have := (reasonsPriority_mem (officialOf title text) (hedgingOf title text)
      (numsOf title text) (quotesOf title text) (totalOf title text)).2.2.2.2.2.2.mp hmem
    omega

/-- C10 witness: concrete evaluation of the range facts. -/
theorem merit_total_range_witness :
    41 ≤ (merit_score "a" "b").total ∧
    reasonLowEvidence ∉ (merit_score "a" "b").reasons :=
  ⟨(merit_total_range "a" "b").1, (merit_total_range "a" "b").2.2.2.2.2⟩

/-- Helper: the collection loop of the fallback equals the filtered,
deduplicated, truncated pipeline capped at the remaining budget, as long as
some budget remains. -/
theorem fbLoop_pipeline (maxBullets : Nat) (sents : List (List Char))
    (seen : List (List Char)) (cnt : Nat) (hcnt : cnt < maxBullets) :
    fbLoop maxBullets seen cnt sents =
      ((dedupByLower seen ((sents.map stripL).filter keepSentence)).map truncSent).take
        (maxBullets - cnt) := by
  induction sents generalizing seen cnt with
  | nil => simp [fbLoop, dedupByLower]
  | cons s rest ih =>
    simp only [fbLoop, List.map_cons, List.filter_cons]
    by_cases h30 : (stripL s).length < 30
    · have hk : keepSentence (stripL s) = false := by
        unfold keepSentence
        simp [h30]
      rw [ih seen cnt hcnt]
      simp [hk, h30]
    · by_cases hb : hasBoilerplate (lowerL (stripL s)) = true
      · have hk : keepSentence (stripL s) = false := by
          unfold keepSentence
          simp [hb]
        rw [if_neg h30, if_pos hb, ih seen cnt hcnt]
        simp [hk]
      · have hk : keepSentence (stripL s) = true := by
          unfold keepSentence
          simp [hb]
          omega
        rw [if_neg h30, if_neg hb]
        simp only [hk, if_true]
        by_cases hseen : lowerL (stripL s) ∈ seen
        · rw [if_pos hseen, ih seen cnt hcnt]
          simp [dedupByLower, hseen]
        · rw [if_neg hseen]
          by_cases hcap : maxBullets ≤ cnt + 1
          · have : maxBullets - cnt = 1 := by omega
            rw [if_pos hcap]
            simp [dedupByLower, hseen, this]
          · rw [if_neg hcap, ih (lowerL (stripL s) :: seen) (cnt + 1) (by omega)]
            have : maxBullets - cnt = (maxBullets - (cnt + 1)) + 1 := by omega
            simp [dedupByLower, hseen, this]


set_option maxRecDepth 40000 in
/-- C4 (amended): for every text and every positive maxBullets the
fallback equals the specified pipeline, where truncation keeps the first
237 characters with trailing whitespace removed before the ellipsis; the
text Short. yields the empty list, and a 300-character single sentence of
letters yields one bullet of 237 characters plus ellipsis. -/
theorem extractive_fallback_spec :
    (∀ (text : String) (maxBullets : Nat), 1 ≤ maxBullets →
      extractive_fallback text maxBullets = fallbackSpec text maxBullets) ∧
    extractive_fallback "Short." 3 = [] ∧
    extractive_fallback (String.mk (List.replicate 299 'a' ++ ['.'])) 3 =
      [String.mk (List.replicate 237 'a' ++ "...".data)] := by
  refine ⟨?_, by decide, by decide⟩
  intro text mb hmb
  unfold extractive_fallback fallbackSpec
  cases he : (normText text.data).isEmpty
  · simp only [he, Bool.false_eq_true, if_false]
    rw [fbLoop_pipeline mb _ [] 0 (by omega)]
    simp
  · simp [he]

set_option maxRecDepth 40000 in
/-- C4 counterexample: on a 300-character sentence whose character at
index 236 is a space, the bullet is not the first 237 characters plus
ellipsis, because the source strips trailing whitespace from the cut. -/
theorem extractive_fallback_counterexample :
    extractive_fallback cexC4 3 ≠ [String.mk (cexC4.data.take 237 ++ "...".data)] ∧
    extractive_fallback cexC4 3 = [String.mk (List.replicate 236 'a' ++ "...".data)] := by
  constructor <;> decide

/-- C4 witness: the amended equality evaluated at a concrete text and cap. -/
theorem extractive_fallback_spec_witness :
    extractive_fallback
        "First sentence is long enough to keep around. Second one is also long enough." 1 =
      fallbackSpec
        "First sentence is long enough to keep around. Second one is also long enough." 1 ∧
    extractive_fallback
        "First sentence is long enough to keep around. Second one is also long enough." 1 =
      ["First sentence is long enough to keep around."] :=
  ⟨extractive_fallback_spec.1 _ 1 (by decide), by decide⟩

/-- C5: the summariser never propagates a failure: without a credential,
on any exception (network error or malformed JSON), or when no bullet
survives the filter, it returns the extractive fallback; and when the AI
path succeeds it returns the filtered bullets capped at maxBullets, each a
nonempty stripped string taken from the response. -/
theorem gemini_tldr_spec (outcome : GeminiOutcome) (title text : String) (maxBullets : Nat) :
    ((outcome = .noKey ∨ outcome = .fail) →
      gemini_tldr outcome title text maxBullets = extractive_fallback text maxBullets) ∧
    (∀ items, outcome = .parsed items →
      (aiBullets items = [] →
        gemini_tldr outcome title text maxBullets = extractive_fallback text maxBullets) ∧
      (aiBullets items ≠ [] →
        gemini_tldr outcome title text maxBullets = (aiBullets items).take maxBullets ∧
        (gemini_tldr outcome title text maxBullets).length ≤ maxBullets ∧
        ∀ b ∈ gemini_tldr outcome title text maxBullets,
          b ≠ "" ∧ ∃ s, PyItem.str s ∈ items ∧ b = pyStrip s)) := by
  constructor
  · rintro (rfl | rfl) <;> rfl
  · rintro items rfl
    constructor
    · intro h
      simp [gemini_tldr, h]
    · intro h
      have hne : (aiBullets items).isEmpty = false := by
        cases hb : aiBullets items
        · exact absurd hb h
        · rfl
      refine ⟨by simp [gemini_tldr, hne], ?_, ?_⟩
      · simp only [gemini_tldr, hne, Bool.false_eq_true, if_false]
        exact List.length_take_le _ _
      · intro b hb
        simp only [gemini_tldr, hne, Bool.false_eq_true, if_false] at hb
        have hb' : b ∈ aiBullets items := List.take_subset _ _ hb
        obtain ⟨i, hi, hf⟩ := List.mem_filterMap.mp hb'
        cases i with
        | str s =>
          dsimp only at hf
          by_cases hs : pyStrip s = ""
          · rw [if_pos hs] at hf
            cases hf
          · rw [if_neg hs] at hf
            have hb2 : b = pyStrip s := (Option.some.inj hf).symm
            exact ⟨by rw [hb2]; exact hs, s, hi, hb2⟩
        | nonstr =>
          dsimp only at hf
          cases hf

/-- C5 witness: a failing call degrades to the fallback, and a parsed
response is filtered, stripped and capped. -/
theorem gemini_tldr_spec_witness :
    gemini_tldr .fail "t" "Some text for the failing call." 3 =
      extractive_fallback "Some text for the failing call." 3 ∧
    gemini_tldr (.parsed [.str " one ", .nonstr, .str "  ", .str "two", .str "three"])
        "t" "x" 2 = ["one", "two"] :=
  ⟨(gemini_tldr_spec .fail "t" "Some text for the failing call." 3).1 (Or.inr rfl),
   (((gemini_tldr_spec (.parsed [.str " one ", .nonstr, .str "  ", .str "two", .str "three"])
        "t" "x" 2).2 _ rfl).2 (by decide)).1.trans (by decide)⟩

/-- Helper: a list whose head fails the predicate is fixed by dropWhile. -/
theorem dropWhile_eq_self_of_head (p : Char → Bool) (l : List Char)
    (h : ∀ c, l.head? = some c → p c = false) : l.dropWhile p = l := by
  cases l with
  | nil => rfl
  | cons a as =>
    have := h a rfl
    simp [List.dropWhile_cons, this]

/-- Helper: the head of a dropWhile result fails the predicate. -/
theorem dropWhile_head_false (p : Char → Bool) (l : List Char) :
    ∀ c, (l.dropWhile p).head? = some c → p c = false := by
  induction l with
  | nil => intro c h; cases h
  | cons a as ih =>
    intro c h
    by_cases hp : p a = true
    · rw [List.dropWhile_cons, if_pos hp] at h
      exact ih c h
    · rw [List.dropWhile_cons, if_neg hp] at h
      cases h
      simpa using hp

/-- Trailing-whitespace removal is the reversed-side dropWhile. -/
theorem rstripL_eq_rdropWhile (l : List Char) : rstripL l = l.rdropWhile isWs := rfl

/-- A stripped list is fixed by another trailing strip. -/
theorem stripL_rstrip_fixed (l : List Char) : rstripL (stripL l) = stripL l := by
  rw [stripL, rstripL_eq_rdropWhile, rstripL_eq_rdropWhile, List.rdropWhile_idempotent]

/-- A stripped list is fixed by another leading strip. -/
theorem stripL_lstrip_fixed (l : List Char) : lstripL (stripL l) = stripL l := by
  apply dropWhile_eq_self_of_head
  intro c h
  obtain ⟨t, ht⟩ := List.rdropWhile_prefix isWs (lstripL l)
  have hr : (List.rdropWhile isWs (lstripL l)).head? = some c := h
  have hmhead : (lstripL l).head? = some c := by
    rw [← ht]
    cases hr' : List.rdropWhile isWs (lstripL l) with
    | nil => rw [hr'] at hr; cases hr
    | cons x xs =>
      rw [hr'] at hr
      rw [List.cons_append, List.head?_cons]
      rw [List.head?_cons] at hr
      exact hr
  exact dropWhile_head_false isWs l c hmhead

/-- The collapse pass starting in whitespace state emits no leading space. -/
theorem collapseWsAux_true_head (l : List Char) :
    ∀ c, (collapseWsAux true l).head? = some c → isWs c = false := by
  induction l with
  | nil => intro c h; cases h
  | cons a as ih =>
    intro c h
    by_cases ha : isWs a = true
    · have he : collapseWsAux true (a :: as) = collapseWsAux true as := by
        simp [collapseWsAux, ha]
      rw [he] at h
      exact ih c h
    · have he : collapseWsAux true (a :: as) = a :: collapseWsAux false as := by
        simp [collapseWsAux, ha]
      rw [he, List.head?_cons] at h
      cases h
      simpa using ha

/-- The collapse pass never emits two adjacent whitespace characters. -/
theorem collapseWsAux_chain (l : List Char) : ∀ b,
    List.Chain' (fun a c => ¬(isWs a = true ∧ isWs c = true)) (collapseWsAux b l) := by
  induction l with
  | nil => intro b; simp [collapseWsAux]
  | cons a as ih =>
    intro b
    by_cases ha : isWs a = true
    · cases b
      · have he : collapseWsAux false (a :: as) = ' ' :: collapseWsAux true as := by
          simp [collapseWsAux, ha]
        rw [he, List.chain'_cons']
        refine ⟨?_, ih true⟩
        intro y hy hcon
        have := collapseWsAux_true_head as y (Option.mem_def.mp hy)
        rw [this] at hcon
        exact absurd hcon.2 (by simp)
      · have he : collapseWsAux true (a :: as) = collapseWsAux true as := by
          simp [collapseWsAux, ha]
        rw [he]
        exact ih true
    · have he : collapseWsAux b (a :: as) = a :: collapseWsAux false as := by
        simp [collapseWsAux, ha]
      rw [he, List.chain'_cons']
      refine ⟨?_, ih false⟩
      intro y hy hcon
      exact absurd hcon.1 (by simpa using ha)

/-- C8: the text normaliser is total and equals the stated composition of
entity decoding, tag removal, whitespace collapsing and trimming; missing
or empty input yields the empty string whenever the entity decoder fixes
the empty string; and the output carries no leading or trailing whitespace
and no two adjacent whitespace characters. -/
theorem clean_html_spec (unesc : String → String) :
    (∀ s : Option String,
      clean_html unesc s =
        String.mk (stripL (collapseWs (stripTags (unesc (s.getD "")).data)))) ∧
    (unesc "" = "" → clean_html unesc none = "" ∧ clean_html unesc (some "") = "") ∧
    (∀ s : Option String,
      lstripL (clean_html unesc s).data = (clean_html unesc s).data ∧
      rstripL (clean_html unesc s).data = (clean_html unesc s).data ∧
      List.Chain' (fun a b => ¬(isWs a = true ∧ isWs b = true))
        (clean_html unesc s).data) := by
  refine ⟨fun s => rfl, ?_, fun s => ?_⟩
  · intro h
    constructor
    · show String.mk (stripL (collapseWs (stripTags (unesc "").data))) = ""
      rw [h]
      rfl
    · show String.mk (stripL (collapseWs (stripTags (unesc "").data))) = ""
      rw [h]
      rfl
  · have hd : (clean_html unesc s).data =
        stripL (collapseWs (stripTags (unesc (s.getD "")).data)) := rfl
    refine ⟨?_, ?_, ?_⟩
    · rw [hd]; exact stripL_lstrip_fixed _
    · rw [hd]; exact stripL_rstrip_fixed _
    · rw [hd]
      have hchain := collapseWsAux_chain (stripTags (unesc (s.getD "")).data) false
      have h1 : List.Chain' (fun a b => ¬(isWs a = true ∧ isWs b = true))
          (lstripL (collapseWs (stripTags (unesc (s.getD "")).data))) :=
        hchain.suffix (List.dropWhile_suffix _)
      exact h1.prefix (List.rdropWhile_prefix _ _)

/-- C8 witness: the identity decoder at concrete inputs. -/
theorem clean_html_spec_witness :
    clean_html id none = "" ∧
    clean_html id (some "  <b>Hello</b>   world  ") = "Hello world" :=
  ⟨((clean_html_spec id).2.1 rfl).1, by decide⟩

/-- C6: the merit scorer is pure and deterministic: evaluated in any two
application states it returns the same result, equal to the pure function
of its arguments alone, and it leaves the state untouched. -/
theorem merit_score_deterministic (w₁ w₂ : World) (title text : String) :
    (meritScoreApp w₁ title text).1 = (meritScoreApp w₂ title text).1 ∧
    (meritScoreApp w₁ title text).2 = w₁ ∧
    (meritScoreApp w₁ title text).1 = merit_score title text :=
  ⟨rfl, rfl, rfl⟩

/-- C9: the analyze endpoint leaves the story store untouched and returns
the request url and title unchanged together with the summariser and
scorer outputs computed from the request title and text. -/
theorem analyze_frame (w : World) (req : AnalyzeRequest)
    (ht : 3 ≤ req.title.length) (hu : 8 ≤ req.url.length)
    (hx : 50 ≤ req.text.length) (hb1 : 1 ≤ req.max_bullets)
    (hb2 : req.max_bullets ≤ 6) :
    (analyze w req).2 = w ∧
    (analyze w req).2.db = w.db ∧
    (analyze w req).1.url = req.url ∧
    (analyze w req).1.title = req.title ∧
    (analyze w req).1.tldr = gemini_tldr w.ai req.title req.text req.max_bullets ∧
    (analyze w req).1.merit_score = (merit_score req.title req.text).total ∧
    (analyze w req).1.badge = (merit_score req.title req.text).badge ∧
    (analyze w req).1.reasons = (merit_score req.title req.text).reasons :=
  ⟨rfl, rfl, rfl, rfl, rfl, rfl, rfl, rfl⟩

/-- C9 witness: a concrete valid request against a concrete state. -/
theorem analyze_frame_witness :
    (analyze ⟨[], .fail⟩
      ⟨"Valid title", "https://example.com/story",
        "This request text is definitely longer than fifty characters in total.",
        3⟩).2 = ⟨[], .fail⟩ :=
  (analyze_frame ⟨[], .fail⟩
    ⟨"Valid title", "https://example.com/story",
      "This request text is definitely longer than fifty characters in total.", 3⟩
    (by decide) (by decide) (by decide) (by decide) (by decide)).1

/-- Helper: ids only grow while the entries of a feed are processed. -/
theorem ingestEntries_mono (env : IngestEnv) (name sport now : String)
    (es : List Entry) : ∀ (db : List StoryRow) (x : String), x ∈ ids db →
    x ∈ ids (ingestEntries env name sport now db es).1 := by
  induction es with
  | nil => intro db x hx; exact hx
  | cons e es ih =>
    intro db x hx
    rw [ingestEntries]
    split_ifs with h1 h2
    · exact ih db x hx
    · apply ih
      unfold ids at *
      simp only [List.map_append, List.mem_append]
      exact Or.inl hx
    · exact ih db x hx

/-- Helper: after a feed is processed, every titled and linked entry of it
has its stable id in the store. -/
theorem ingestEntries_cover (env : IngestEnv) (name sport now : String)
    (es : List Entry) : ∀ (db : List StoryRow) (e : Entry), e ∈ es →
    (truthy e.link && truthy e.title) = true →
    env.sid (e.link.getD "") ∈ ids (ingestEntries env name sport now db es).1 := by
  induction es with
  | nil => intro db e he; cases he
  | cons e0 es ih =>
    intro db e he ht
    rw [ingestEntries]
    rcases List.mem_cons.mp he with rfl | hmem
    · rw [if_pos ht]
      split_ifs with h2
      · exact ingestEntries_mono env name sport now es db _ h2
      · apply ingestEntries_mono
        unfold ids
        simp [mkRow]
    · split_ifs with h1 h2
      · exact ih db e hmem ht
      · exact ih _ e hmem ht
      · exact ih db e hmem ht

/-- Helper: when every titled and linked entry of the feed is already
present, nothing is inserted, every fetched entry counts as skipped, and
the store is unchanged. -/
theorem ingestEntries_stable (env : IngestEnv) (name sport now : String)
    (es : List Entry) : ∀ (db : List StoryRow),
    (∀ e ∈ es, (truthy e.link && truthy e.title) = true →
      env.sid (e.link.getD "") ∈ ids db) →
    (ingestEntries env name sport now db es).1 = db ∧
    (ingestEntries env name sport now db es).2.2.1 = 0 ∧
    (ingestEntries env name sport now db es).2.2.2 =
      (ingestEntries env name sport now db es).2.1 := by
  induction es with
  | nil => intro db hcov; exact ⟨rfl, rfl, rfl⟩
  | cons e es ih =>
    intro db hcov
    rw [ingestEntries]
    split_ifs with h1 h2
    · obtain ⟨ha, hb, hc⟩ := ih db (fun e2 he2 ht2 => hcov e2 (List.mem_cons_of_mem _ he2) ht2)
      refine ⟨ha, ?_, ?_⟩ <;> simp [bump, hb, hc]
    · exact absurd (hcov e (List.mem_cons_self _ _) h1) h2
    · exact ih db (fun e2 he2 ht2 => hcov e2 (List.mem_cons_of_mem _ he2) ht2)

/-- Helper: ids only grow across the sources of a run. -/
theorem ingestSources_mono (env : IngestEnv) (now : String)
    (srcs : List Source) : ∀ (db : List StoryRow) (x : String), x ∈ ids db →
    x ∈ ids (ingestSources env now db srcs).1 := by
  induction srcs with
  | nil => intro db x hx; exact hx
  | cons src rest ih =>
    intro db x hx
    rw [ingestSources]
    split_ifs with h1
    · exact ih db x hx
    · cases hf : env.fetch src.url with
      | none => exact ih db x hx
      | some entries =>
        exact ih _ x (ingestEntries_mono env src.name src.sport now
          (entries.take 40) db x hx)

/-- Helper: after a run, every titled and linked entry of every fetched
source has its stable id in the store. -/
theorem ingestSources_cover (env : IngestEnv) (now : String)
    (srcs : List Source) : ∀ (db : List StoryRow) (src : Source), src ∈ srcs →
    ¬ src.url = "" → ∀ entries, env.fetch src.url = some entries →
    ∀ e ∈ entries.take 40, (truthy e.link && truthy e.title) = true →
    env.sid (e.link.getD "") ∈ ids (ingestSources env now db srcs).1 := by
  induction srcs with
  | nil => intro db src hs; cases hs
  | cons src0 rest ih =>
    intro db src hs hu entries hf e he ht
    rw [ingestSources]
    rcases List.mem_cons.mp hs with rfl | hmem
    · rw [if_neg hu, hf]
      apply ingestSources_mono
      exact ingestEntries_cover env src.name src.sport now (entries.take 40) db e he ht
    · split_ifs with h1
      · exact ih db src hmem hu entries hf e he ht
      · cases hf0 : env.fetch src0.url with
        | none => exact ih db src hmem hu entries hf e he ht
        | some entries0 => exact ih _ src hmem hu entries hf e he ht

/-- Helper: when every titled and linked entry of every fetched source is
already present, a run changes nothing and inserts nothing. -/
theorem ingestSources_stable (env : IngestEnv) (now : String)
    (srcs : List Source) : ∀ (db : List StoryRow),
    (∀ src ∈ srcs, ¬ src.url = "" → ∀ entries, env.fetch src.url = some entries →
      ∀ e ∈ entries.take 40, (truthy e.link && truthy e.title) = true →
      env.sid (e.link.getD "") ∈ ids db) →
    (ingestSources env now db srcs).1 = db ∧
    (ingestSources env now db srcs).2.2.1 = 0 ∧
    (ingestSources env now db srcs).2.2.2 = (ingestSources env now db srcs).2.1 := by
  induction srcs with
  | nil => intro db hcov; exact ⟨rfl, rfl, rfl⟩
  | cons src rest ih =>
    intro db hcov
    rw [ingestSources]
    split_ifs with h1
    · exact ih db (fun s hs => hcov s (List.mem_cons_of_mem _ hs))
    · cases hf : env.fetch src.url with
      | none => exact ih db (fun s hs => hcov s (List.mem_cons_of_mem _ hs))
      | some entries =>
        dsimp only
        obtain ⟨ha, hb, hc⟩ := ingestEntries_stable env src.name src.sport now
          (entries.take 40) db
          (fun e he ht => hcov src (List.mem_cons_self _ _) h1 entries hf e he ht)
        obtain ⟨ra, rb, rc⟩ := ih db (fun s hs => hcov s (List.mem_cons_of_mem _ hs))
        simp only [addCounts, ha]
        exact ⟨ra, by omega, by omega⟩

/-- C7: ingestion is idempotent: a second run against an unchanged
environment inserts nothing, counts every titled and linked entry as
skipped, and leaves the store exactly as the first run left it; and the
per-entry dedup is keyed solely by the stable id of the link, an entry
whose id is already stored being counted as skipped, not inserted. -/
theorem ingest_idempotent (env : IngestEnv) (sources : List Source)
    (now now2 : String) (db : List StoryRow) :
    (ingest env sources now2 (ingest env sources now db).db).inserted = 0 ∧
    (ingest env sources now2 (ingest env sources now db).db).skipped =
      (ingest env sources now2 (ingest env sources now db).db).fetched_items ∧
    (ingest env sources now2 (ingest env sources now db).db).db =
      (ingest env sources now db).db ∧
    (∀ (name sport : String) (e : Entry) (db2 : List StoryRow),
      (truthy e.link && truthy e.title) = true →
      env.sid (e.link.getD "") ∈ ids db2 →
      ingestEntries env name sport now db2 [e] = (db2, 1, 0, 1)) := by
  have hcov : ∀ src ∈ sources, ¬ src.url = "" →
      ∀ entries, env.fetch src.url = some entries →
      ∀ e ∈ entries.take 40, (truthy e.link && truthy e.title) = true →
      env.sid (e.link.getD "") ∈ ids (ingestSources env now db sources).1 :=
    fun src hs hu entries hf e he ht =>
      ingestSources_cover env now sources db src hs hu entries hf e he ht
  obtain ⟨ha, hb, hc⟩ := ingestSources_stable env now2 sources
    (ingestSources env now db sources).1 hcov
  refine ⟨hb, hc, ha, ?_⟩
  intro name sport e db2 ht hmem
  rw [ingestEntries, if_pos ht, if_pos hmem]
  rfl

/-- C7 witness: a store already holding the id of the sole entry skips it. -/
theorem ingest_idempotent_witness :
    ingestEntries ⟨id, fun _ => none, id, .fail, fun _ => none⟩ "n" "sp" "now"
      [⟨"L1", "src", "sp", "T", "L1", none, "", [], 0, "", "now"⟩]
      [⟨some "L1", some "T", none, none, none⟩] =
      ([⟨"L1", "src", "sp", "T", "L1", none, "", [], 0, "", "now"⟩], 1, 0, 1) :=
  (ingest_idempotent ⟨id, fun _ => none, id, .fail, fun _ => none⟩ [] "now" "now"
      []).2.2.2 "n" "sp" ⟨some "L1", some "T", none, none, none⟩
    [⟨"L1", "src", "sp", "T", "L1", none, "", [], 0, "", "now"⟩] (by decide) (by decide)

end Sportabase
